import Mathlib

/-!
Verification of the task-lifecycle consistency engine of the Task-py
backend (FastAPI + Celery).  The Python source is shallowly embedded:

* `app/models.py`   — the data model (`Task`, `Notification`, `User`);
* `app/celery_worker.py::process_task_overdue_check` — the 5-minute sweep;
* `app/main.py::lifespan` — the startup reconciliation pass;
* `app/routes/tasks.py::create_task` / `bulk_create_tasks` — creation-time
  auto-transition;
* `app/cache.py::cache_delete_pattern` plus the purge calls issued by the
  task/comment route handlers;
* `app/websocket.py::ConnectionManager` — connect / disconnect / broadcast.

Timestamps are modelled as `Int` (UTC instants, comparable with `<`/`≤`);
UUIDs as `Nat`; SQL `NULL` as `none`.  A SQL comparison against `NULL`
(e.g. `Task.due_date < now` when `due_date IS NULL`) is `false`, which the
embedding reflects by matching on the `Option`.
-/

namespace TaskPy

/-- `app/models.py::TaskStatus`. -/
inductive TaskStatus where
  | todo
  | in_progress
  | completed
  | overdue
deriving DecidableEq, Repr

/-- `app/models.py::TaskPriority`. -/
inductive TaskPriority where
  | low
  | medium
  | high
  | urgent
deriving DecidableEq, Repr

/-- `app/models.py::NotificationType`. -/
inductive NotificationType where
  | task_overdue
  | task_assigned
  | comment_added
deriving DecidableEq, Repr

/-- `app/models.py::Task` — the columns the lifecycle engine reads or
writes.  `start_date`/`due_date` are nullable timestamps, `assigned_to`
a nullable user id. -/
structure Task where
  id : Nat
  title : String
  status : TaskStatus
  priority : TaskPriority
  start_date : Option Int
  due_date : Option Int
  notify_overdue : Bool
  is_deleted : Bool
  created_by : Nat
  assigned_to : Option Nat
deriving DecidableEq, Repr

/-- `app/models.py::User` — the columns read by the notification paths. -/
structure User where
  id : Nat
  email : String
deriving DecidableEq, Repr

/-- `app/models.py::Notification` — the columns written by the overdue
paths (`id`, `is_read`, `created_at` are DB-generated and not modelled). -/
structure Notification where
  user_id : Nat
  task_id : Nat
  type : NotificationType
  title : String
  message : String
deriving DecidableEq, Repr

/-- An outgoing email: recipient address, subject, HTML body
(arguments of `send_email_notification`). -/
structure EmailMsg where
  to_email : String
  subject : String
  body : String
deriving DecidableEq, Repr

/-- The persistent state the engine touches: the `tasks` table and the
`notifications` table. -/
structure DBState where
  tasks : List Task
  notifications : List Notification
deriving DecidableEq, Repr

/-- A single-quote character as a string (used in notification messages). -/
def sq : String := String.singleton (Char.ofNat 39)

/-- The `WHERE` clause of the sweep's select
(`celery_worker.py` lines 62–68): `Task.due_date < now`,
`Task.status.notin_([COMPLETED, OVERDUE])`, `Task.is_deleted == False`.
A `NULL` `due_date` fails the comparison. -/
def overdueEligible (now : Int) (t : Task) : Bool :=
  (match t.due_date with
   | some d => decide (d < now)
   | none => false)
  && !(t.status == TaskStatus.completed || t.status == TaskStatus.overdue)
  && t.is_deleted == false

/-- `task.status = TaskStatus.OVERDUE` (`celery_worker.py` line 74). -/
def markOverdue (t : Task) : Task :=
  { t with status := TaskStatus.overdue }

/-- The `Notification(...)` built at `celery_worker.py` lines 79–85:
recipient is `task.assigned_to or task.created_by`. -/
def overdueNotification (t : Task) : Notification :=
  { user_id := t.assigned_to.getD t.created_by
  , task_id := t.id
  , type := NotificationType.task_overdue
  , title := "Task Overdue: " ++ t.title
  , message := "Task " ++ sq ++ t.title ++ sq
      ++ " is past its due date. Please take action." }

/-- The email dispatched by the sweep (`celery_worker.py` lines 90–97):
only when `task.assigned_to` is set and `session.get(User, ...)` finds the
assignee.  (The sweep does not check the address for emptiness.) -/
def sweepEmailFor (users : List User) (t : Task) : List EmailMsg :=
  match t.assigned_to with
  | none => []
  | some uid =>
    match users.find? (fun u => u.id == uid) with
    | none => []
    | some assignee =>
      [{ to_email := assignee.email
       , subject := "Overdue: " ++ t.title
       , body := "<p>Task <strong>" ++ t.title
           ++ "</strong> is overdue. Please update its status.</p>" }]

/-- The `for task in overdue_tasks` loop body of the sweep
(`celery_worker.py` lines 73–97), minus the in-place status write (which
is applied to the task list separately, see
`process_task_overdue_check`): accumulates, in loop order, the new
notifications, the dispatched emails, and the `marked` / `notified`
counters. -/
def overdueLoop (users : List User) :
    List Task → List Notification × List EmailMsg × Nat × Nat
  | [] => ([], [], 0, 0)
  | t :: rest =>
    let r := overdueLoop users rest
    if t.notify_overdue then
      (overdueNotification t :: r.1, sweepEmailFor users t ++ r.2.1,
       r.2.2.1 + 1, r.2.2.2 + 1)
    else
      (r.1, r.2.1, r.2.2.1 + 1, r.2.2.2)

/-- The return value of the sweep together with its effects on the store. -/
structure SweepOutcome where
  tasks : List Task
  notifications : List Notification
  emails : List EmailMsg
  marked_overdue : Nat
  notifications_sent : Nat
deriving DecidableEq, Repr

/-- `app/celery_worker.py::process_task_overdue_check`: select the
eligible tasks, set each one's status to `OVERDUE` (the ORM in-place
mutation is modelled as a pointwise update of the task list), create a
notification for each task with `notify_overdue`, dispatch an email when
the task has an assignee, and report
`{marked_overdue, notifications_sent}`. -/
def process_task_overdue_check (now : Int) (users : List User)
    (db : DBState) : SweepOutcome :=
  let overdue_tasks := db.tasks.filter (overdueEligible now)
  let r := overdueLoop users overdue_tasks
  { tasks := db.tasks.map
      (fun t => if overdueEligible now t then markOverdue t else t)
  , notifications := db.notifications ++ r.1
  , emails := r.2.1
  , marked_overdue := r.2.2.1
  , notifications_sent := r.2.2.2 }

/-- The `WHERE` clause of the startup pass's step 2
(`main.py` lines 65–69): `Task.start_date <= now`,
`Task.status == TaskStatus.TODO`, `Task.is_deleted == False`.
A `NULL` `start_date` fails the comparison. -/
def startEligible (now : Int) (t : Task) : Bool :=
  (match t.start_date with
   | some s => decide (s ≤ now)
   | none => false)
  && t.status == TaskStatus.todo
  && t.is_deleted == false

/-- The email attempted by the startup pass (`main.py` lines 52–62):
looks up `notify_user_id` (assignee or creator) and sends only when the
user exists and has a non-empty address (`if u and u.email`). -/
def startupEmailFor (users : List User) (t : Task) : List EmailMsg :=
  match users.find? (fun u => u.id == (t.assigned_to.getD t.created_by)) with
  | none => []
  | some u =>
    if u.email == "" then []
    else
      [{ to_email := u.email
       , subject := "Overdue: " ++ t.title
       , body := "<p>Task <strong>" ++ t.title
           ++ "</strong> is overdue. Please update its status.</p>" }]

/-- The `for task in overdue_tasks` loop of the startup pass
(`main.py` lines 39–62): same notification construction as the sweep,
different email guard. -/
def startupOverdueLoop (users : List User) :
    List Task → List Notification × List EmailMsg
  | [] => ([], [])
  | t :: rest =>
    let r := startupOverdueLoop users rest
    if t.notify_overdue then
      (overdueNotification t :: r.1, startupEmailFor users t ++ r.2)
    else
      (r.1, r.2)

/-- `app/main.py::lifespan`, the startup reconciliation inside
`async with async_session()`: step 1 marks past-due tasks `OVERDUE` and
creates notifications (lines 33–62), step 2 then bulk-updates `TODO`
tasks whose `start_date` has passed to `IN_PROGRESS` (lines 64–69).
Step 2 runs on the state left by step 1. -/
def lifespan_startup (now : Int) (users : List User) (db : DBState) :
    DBState × List EmailMsg :=
  let tasks1 := db.tasks.map
    (fun t => if overdueEligible now t then markOverdue t else t)
  let r := startupOverdueLoop users (db.tasks.filter (overdueEligible now))
  let tasks2 := tasks1.map
    (fun t => if startEligible now t then { t with status := TaskStatus.in_progress } else t)
  ({ tasks := tasks2, notifications := db.notifications ++ r.1 }, r.2)

/-- The inline "Real-time status transitions before counting" block of
`routes/analytics.py::get_overview` (lines 26–38): a bulk update marking
past-due tasks OVERDUE, then a bulk update moving started TODO tasks to
IN_PROGRESS; the second runs on the state left by the first.  The block
inserts no `Notification` rows, so the notification table passes through
unchanged. -/
def get_overview_transitions (now : Int) (db : DBState) : DBState :=
  let tasks1 := db.tasks.map
    (fun t => if overdueEligible now t then markOverdue t else t)
  let tasks2 := tasks1.map
    (fun t => if startEligible now t then { t with status := TaskStatus.in_progress } else t)
  { tasks := tasks2, notifications := db.notifications }

/-- The fields of `schemas.py::TaskCreate` that the creation-time status
logic reads (`data.status` defaults to `"todo"` and is parsed with
`TaskStatus(data.status) if data.status else TaskStatus.TODO`). -/
structure TaskCreate where
  title : String
  status : Option TaskStatus
  priority : Option TaskPriority
  start_date : Option Int
  due_date : Option Int
  notify_overdue : Option Bool
  assigned_to : Option Nat
deriving DecidableEq, Repr

/-- The "Auto-transition based on due_date" block shared verbatim by
`routes/tasks.py::create_task` (lines 40–46) and
`routes/tasks.py::bulk_create_tasks` (lines 77–82): keyed entirely on
`due_date`, never on `start_date`. -/
def auto_status (now : Int) (initial_status : TaskStatus)
    (due_date : Option Int) : TaskStatus :=
  match due_date with
  | none => initial_status
  | some d =>
    if decide (d < now)
        && !(initial_status == TaskStatus.completed
             || initial_status == TaskStatus.overdue) then
      TaskStatus.overdue
    else if decide (d ≥ now) && initial_status == TaskStatus.todo then
      TaskStatus.in_progress
    else
      initial_status

/-- `routes/tasks.py::create_task` (lines 37–56): builds the new `Task`
row.  Note the `Task(...)` constructor call passes no `start_date`, so
the stored `start_date` is always `NULL` regardless of `data.start_date`. -/
def create_task (now : Int) (new_id : Nat) (data : TaskCreate)
    (current_user_id : Nat) : Task :=
  let initial_status := data.status.getD TaskStatus.todo
  { id := new_id
  , title := data.title
  , status := auto_status now initial_status data.due_date
  , priority := data.priority.getD TaskPriority.medium
  , start_date := none
  , due_date := data.due_date
  , notify_overdue := data.notify_overdue.getD false
  , is_deleted := false
  , created_by := current_user_id
  , assigned_to := data.assigned_to }

/-- `routes/tasks.py::bulk_create_tasks` (lines 71–98): the same
per-item construction applied to each element of `data.tasks`. -/
def bulk_create_tasks (now : Int) (ids : List Nat) (data : List TaskCreate)
    (current_user_id : Nat) : List Task :=
  (ids.zip data).map (fun p => create_task now p.1 p.2 current_user_id)

/-- Redis glob matching as used by `cache_delete_pattern` via
`scan_iter(match=pattern)`, for the trailing-star patterns the routes
use (`"tasks:*"`, `"analytics:*"`). -/
def glob_match (pat key : String) : Bool :=
  if pat.data.getLast? == some (Char.ofNat 42) then
    pat.data.dropLast.isPrefixOf key.data
  else pat == key

/-- `app/cache.py::cache_delete_pattern`: deletes every cached key
matching the pattern. -/
def cache_delete_pattern (pat : String) (cache : List String) : List String :=
  cache.filter (fun k => !(glob_match pat k))

/-- Cache effect of `routes/tasks.py::create_task` (lines 62–63):
purges `"tasks:*"` then `"analytics:*"`. -/
def create_task_cache (c : List String) : List String :=
  cache_delete_pattern "analytics:*" (cache_delete_pattern "tasks:*" c)

/-- Cache effect of `routes/tasks.py::bulk_create_tasks` (lines 100–101). -/
def bulk_create_tasks_cache (c : List String) : List String :=
  cache_delete_pattern "analytics:*" (cache_delete_pattern "tasks:*" c)

/-- Cache effect of `routes/tasks.py::update_task` (lines 210–211). -/
def update_task_cache (c : List String) : List String :=
  cache_delete_pattern "analytics:*" (cache_delete_pattern "tasks:*" c)

/-- Cache effect of `routes/tasks.py::delete_task` (lines 227–228). -/
def delete_task_cache (c : List String) : List String :=
  cache_delete_pattern "analytics:*" (cache_delete_pattern "tasks:*" c)

/-- Cache effect of `routes/comments.py::add_comment` (lines 26–47):
the handler performs no cache operation at all. -/
def add_comment_cache (c : List String) : List String := c

/-- Cache effect of `routes/comments.py::update_comment` (lines 63–77):
no cache operation. -/
def update_comment_cache (c : List String) : List String := c

/-- Cache effect of `routes/comments.py::delete_comment` (lines 81–90):
no cache operation. -/
def delete_comment_cache (c : List String) : List String := c

/-- A live websocket session handle (`WebSocket` object identity). -/
abbrev Session := Nat

/-- `ConnectionManager.active_connections`: an insertion-ordered map
from user id to the user's list of live sessions, modelled as an
association list with unique keys (a Python `dict`). -/
abbrev Registry := List (String × List Session)

/-- `websocket.py::ConnectionManager.connect` (lines 11–15): create the
user's bucket if absent (a new `dict` key is appended at the end), then
append the session. -/
def connect (reg : Registry) (ws : Session) (user_id : String) : Registry :=
  if reg.any (fun b => b.1 == user_id) then
    reg.map (fun b => if b.1 == user_id then (b.1, b.2 ++ [ws]) else b)
  else
    reg ++ [(user_id, [ws])]

/-- `websocket.py::ConnectionManager.disconnect` (lines 17–23): if the
user has a bucket, rebuild it without the session; delete the key when
the rebuilt bucket is empty. -/
def disconnect (reg : Registry) (ws : Session) (user_id : String) : Registry :=
  match reg.find? (fun b => b.1 == user_id) with
  | none => reg
  | some b =>
    let pruned := b.2.filter (fun w => !(w == ws))
    if pruned.isEmpty then
      reg.filter (fun c => !(c.1 == user_id))
    else
      reg.map (fun c => if c.1 == user_id then (c.1, pruned) else c)

/-- `websocket.py::ConnectionManager.broadcast` (lines 33–41).
`sendOk s` tells whether `ws.send_json` succeeds on session `s` (an
exception is caught and the loop continues).  Returns the list of
sessions that received the event, in iteration order, together with the
registry after the call — `broadcast` never mutates
`active_connections`, so the registry component is the input rebuilt
unchanged. -/
def broadcast (sendOk : Session → Bool) (exclude_user : Option String) :
    Registry → List Session × Registry
  | [] => ([], [])
  | (u, conns) :: rest =>
    let r := broadcast sendOk exclude_user rest
    if exclude_user == some u then
      (r.1, (u, conns) :: r.2)
    else
      (conns.filter sendOk ++ r.1, (u, conns) :: r.2)

/-- One evaluator racing on the sweep: it has either not yet run its
select (`snap = none`) or holds the snapshot of eligible tasks it read;
`committed` records whether it has already applied its writes. -/
structure Evaluator where
  snap : Option (List Task)
  committed : Bool
deriving DecidableEq, Repr

/-- Initial evaluator: no snapshot taken, nothing committed. -/
def Evaluator.fresh : Evaluator := { snap := none, committed := false }

/-- Shared DB plus the local state of each concurrent evaluator. -/
structure RaceState where
  db : DBState
  evs : List Evaluator
deriving DecidableEq, Repr

/-- The two suspension points of `process_task_overdue_check` when
several workers run it concurrently: the select that reads the snapshot
(lines 62–68) and the commit that publishes the loop's writes
(lines 73–99). -/
inductive EvAct where
  | select
  | commit
deriving DecidableEq, Repr

/-- The writes the loop (lines 73–87) performs for a snapshot, applied
unconditionally at commit time: every snapshotted task id gets status
`OVERDUE` (no guard re-checking the current status), and every
snapshotted task with `notify_overdue` contributes one notification. -/
def applyCommit (snap : List Task) (db : DBState) : DBState :=
  { tasks := db.tasks.map
      (fun t => if snap.any (fun s => s.id == t.id) then markOverdue t else t)
  , notifications :=
      db.notifications ++ (snap.filter (fun s => s.notify_overdue)).map overdueNotification }

/-- One scheduler step: evaluator `i` performs the given action.
A select is a no-op once the snapshot is taken; a commit is a no-op
before the select or after it already committed; an out-of-range index
does nothing. -/
def raceStep (now : Int) (st : RaceState) (act : Nat × EvAct) : RaceState :=
  match st.evs[act.1]? with
  | none => st
  | some ev =>
    match act.2 with
    | EvAct.select =>
      match ev.snap with
      | some _ => st
      | none =>
        let ev2 : Evaluator :=
          { ev with snap := some (st.db.tasks.filter (overdueEligible now)) }
        { st with evs := st.evs.set act.1 ev2 }
    | EvAct.commit =>
      match ev.snap with
      | none => st
      | some snap =>
        if ev.committed then st
        else
          { db := applyCommit snap st.db
          , evs := st.evs.set act.1 { ev with committed := true } }

/-- Run a schedule (a sequence of evaluator steps) from a state. -/
def raceRun (now : Int) (sched : List (Nat × EvAct)) (st : RaceState) : RaceState :=
  sched.foldl (raceStep now) st

/-- The serialized schedule over a list of evaluator indices: each
evaluator performs its select and its commit before the next starts. -/
def serialSched (is : List Nat) : List (Nat × EvAct) :=
  is.flatMap (fun i => [(i, EvAct.select), (i, EvAct.commit)])

/-! ### Helper lemmas about the sweep -/

theorem overdueEligible_iff (now : Int) (t : Task) :
    overdueEligible now t = true ↔
      ((∃ d, t.due_date = some d ∧ d < now) ∧
        t.status ≠ TaskStatus.completed ∧ t.status ≠ TaskStatus.overdue ∧
        t.is_deleted = false) := by
  cases h : t.due_date with
  | none => simp [overdueEligible, h]
  | some d => simp [overdueEligible, h, and_assoc]

theorem sweep_tasks_eq (now : Int) (users : List User) (db : DBState) :
    (process_task_overdue_check now users db).tasks
      = db.tasks.map (fun t => if overdueEligible now t then markOverdue t else t) := rfl

theorem zip_map_self {α : Type} (l : List α) (f : α → α) :
    l.zip (l.map f) = l.map (fun a => (a, f a)) := by
  induction l with
  | nil => rfl
  | cons a as ih => simp [ih]

theorem overdueLoop_marked (users : List User) (l : List Task) :
    (overdueLoop users l).2.2.1 = l.length := by
  induction l with
  | nil => rfl
  | cons t r ih =>
    by_cases h : t.notify_overdue <;> simp [overdueLoop, h, ih]

theorem overdueLoop_sent (users : List User) (l : List Task) :
    (overdueLoop users l).2.2.2
      = (l.filter (fun t => t.notify_overdue)).length := by
  induction l with
  | nil => rfl
  | cons t r ih =>
    by_cases h : t.notify_overdue <;> simp [overdueLoop, h, ih]

theorem overdueLoop_notifs (users : List User) (l : List Task) :
    (overdueLoop users l).1
      = (l.filter (fun t => t.notify_overdue)).map overdueNotification := by
  induction l with
  | nil => rfl
  | cons t r ih =>
    by_cases h : t.notify_overdue <;> simp [overdueLoop, h, ih]

theorem sweep_marked_eq (now : Int) (users : List User) (db : DBState) :
    (process_task_overdue_check now users db).marked_overdue
      = (db.tasks.filter (overdueEligible now)).length := by
  simpa [process_task_overdue_check] using
    overdueLoop_marked users (db.tasks.filter (overdueEligible now))

theorem sweep_sent_eq (now : Int) (users : List User) (db : DBState) :
    (process_task_overdue_check now users db).notifications_sent
      = ((db.tasks.filter (overdueEligible now)).filter
          (fun t => t.notify_overdue)).length := by
  simpa [process_task_overdue_check] using
    overdueLoop_sent users (db.tasks.filter (overdueEligible now))

theorem sweep_notifications_eq (now : Int) (users : List User) (db : DBState) :
    (process_task_overdue_check now users db).notifications
      = db.notifications
        ++ ((db.tasks.filter (overdueEligible now)).filter
            (fun t => t.notify_overdue)).map overdueNotification := by
  simp [process_task_overdue_check, overdueLoop_notifs]

/-- After a sweep pass, no task remains eligible for the overdue
transition. -/
theorem eligible_after_sweep (now : Int) (t : Task) :
    overdueEligible now (if overdueEligible now t then markOverdue t else t)
      = false := by
  by_cases h : overdueEligible now t = true
  · rw [if_pos h]
    simp [overdueEligible, markOverdue]
  · rw [if_neg h]
    simpa using h

/-! ### C1 — the sweep marks exactly the eligible tasks overdue -/

/-- C1: pairing each task with its image under
`process_task_overdue_check` (positionally, via `zip`): every
non-deleted task with `due_date < now` and status outside
{COMPLETED, OVERDUE} ends with status OVERDUE, while a task that is
COMPLETED, already OVERDUE, or deleted is returned unchanged. -/
theorem sweep_marks_overdue_and_preserves_terminal (now : Int)
    (users : List User) (db : DBState) :
    ∀ p ∈ db.tasks.zip (process_task_overdue_check now users db).tasks,
      (((∃ d, p.1.due_date = some d ∧ d < now) ∧
          p.1.status ≠ TaskStatus.completed ∧ p.1.status ≠ TaskStatus.overdue ∧
          p.1.is_deleted = false) →
        p.2.status = TaskStatus.overdue) ∧
      ((p.1.status = TaskStatus.completed ∨ p.1.status = TaskStatus.overdue ∨
          p.1.is_deleted = true) →
        p.2 = p.1) := by
  intro p hp
  rw [sweep_tasks_eq, zip_map_self] at hp
  obtain ⟨t, ht, rfl⟩ := List.mem_map.1 hp
  refine ⟨?_, ?_⟩
  · intro hcond
    have he : overdueEligible now t = true := (overdueEligible_iff now t).2 hcond
    simp [he, markOverdue]
  · intro hterm
    have hterm2 : t.status = TaskStatus.completed ∨ t.status = TaskStatus.overdue
        ∨ t.is_deleted = true := by simpa using hterm
    have he : overdueEligible now t = false := by
      rcases hterm2 with h | h | h <;> simp [overdueEligible, h]
    simp [he]

/-- Example task: TODO, due in the past, not deleted. -/
def exTask : Task :=
  { id := 1
  , title := "t"
  , status := TaskStatus.todo
  , priority := TaskPriority.medium
  , start_date := none
  , due_date := some 0
  , notify_overdue := true
  , is_deleted := false
  , created_by := 5
  , assigned_to := none }

/-- Example store holding only `exTask`. -/
def exDB : DBState := { tasks := [exTask], notifications := [] }

/-- Witness for C1 at a concrete input: the eligible task `exTask`
(due at 0, evaluated at 1) is marked OVERDUE. -/
theorem sweep_marks_overdue_witness :
    ((exTask, markOverdue exTask)
        ∈ exDB.tasks.zip (process_task_overdue_check 1 [] exDB).tasks) ∧
    (markOverdue exTask).status = TaskStatus.overdue :=
  ⟨by decide,
   (sweep_marks_overdue_and_preserves_terminal 1 [] exDB
      (exTask, markOverdue exTask) (by decide)).1
     ⟨⟨0, rfl, by decide⟩, by decide, by decide, rfl⟩⟩

/-! ### C10 — counter consistency of the sweep result -/

theorem filter_zip_changed (now : Int) (l : List Task) :
    ((l.map (fun t => (t, if overdueEligible now t then markOverdue t else t))).filter
        (fun p => !(p.1.status == TaskStatus.overdue)
          && p.2.status == TaskStatus.overdue)).length
      = (l.filter (overdueEligible now)).length := by
  induction l with
  | nil => rfl
  | cons t r ih =>
    by_cases h : overdueEligible now t = true
    · have h1 : t.status ≠ TaskStatus.overdue :=
        ((overdueEligible_iff now t).1 h).2.2.1
      have h2 : (t.status == TaskStatus.overdue) = false := by
        simpa using h1
      have h3 : (markOverdue t).status = TaskStatus.overdue := rfl
      simp [h, h2, h3, ih]
    · have h0 : overdueEligible now t = false := by simpa using h
      have h2 : (!(t.status == TaskStatus.overdue)
          && t.status == TaskStatus.overdue) = false := by
        cases hb : (t.status == TaskStatus.overdue) <;> simp [hb]
      simp [h0, h2, ih]

/-- C10: the sweep's return value is internally consistent:
`notifications_sent ≤ marked_overdue`, and `marked_overdue` equals the
number of positions whose task changed from a non-OVERDUE status to
OVERDUE in this run. -/
theorem sweep_counters_consistent (now : Int) (users : List User) (db : DBState) :
    (process_task_overdue_check now users db).notifications_sent
        ≤ (process_task_overdue_check now users db).marked_overdue ∧
    (process_task_overdue_check now users db).marked_overdue
      = ((db.tasks.zip (process_task_overdue_check now users db).tasks).filter
          (fun p => !(p.1.status == TaskStatus.overdue)
            && p.2.status == TaskStatus.overdue)).length := by
  constructor
  · rw [sweep_marked_eq, sweep_sent_eq]
    exact List.length_filter_le _ _
  · rw [sweep_marked_eq, sweep_tasks_eq, zip_map_self, filter_zip_changed]

/-! ### C6 — the sweep is idempotent -/

/-- C6: running the sweep again on the state it produced performs no
further work: the task table and the notification table are unchanged,
and the second run reports zero marked tasks and zero notifications. -/
theorem sweep_idempotent (now : Int) (users : List User) (db : DBState) :
    process_task_overdue_check now users
        { tasks := (process_task_overdue_check now users db).tasks
        , notifications := (process_task_overdue_check now users db).notifications }
      = { tasks := (process_task_overdue_check now users db).tasks
        , notifications := (process_task_overdue_check now users db).notifications
        , emails := []
        , marked_overdue := 0
        , notifications_sent := 0 } := by
  have hfilter : (process_task_overdue_check now users db).tasks.filter
      (overdueEligible now) = [] := by
    rw [sweep_tasks_eq, List.filter_eq_nil_iff]
    intro a ha
    obtain ⟨t, _, rfl⟩ := List.mem_map.1 ha
    simp [eligible_after_sweep]
  have hmap : (process_task_overdue_check now users db).tasks.map
      (fun t => if overdueEligible now t then markOverdue t else t)
      = (process_task_overdue_check now users db).tasks := by
    rw [sweep_tasks_eq]
    have hc : ∀ a ∈ db.tasks.map
        (fun t => if overdueEligible now t then markOverdue t else t),
        (fun t => if overdueEligible now t then markOverdue t else t) a = id a := by
      intro a ha
      obtain ⟨s, _, rfl⟩ := List.mem_map.1 ha
      show (if overdueEligible now _ then _ else _) = _
      rw [if_neg]
      · rfl
      · simp [eligible_after_sweep]
    exact (List.map_congr_left hc).trans (List.map_id _)
  rw [sweep_tasks_eq] at hfilter
  simp only [process_task_overdue_check]
  simp [hfilter, hmap, overdueLoop, eligible_after_sweep]

/-! ### C2 — notification emission on the overdue transition -/

/-- Same eligible task but with `notify_overdue = False`. -/
def exTaskQuiet : Task :=
  { exTask with id := 2, notify_overdue := false }

/-- Store holding only the quiet task. -/
def exDBQuiet : DBState := { tasks := [exTaskQuiet], notifications := [] }

/-- C2 counterexample: the notification record is NOT persisted
unconditionally — `exTaskQuiet` (due at 0, TODO, `notify_overdue = False`)
is transitioned to OVERDUE by the sweep at time 1, yet zero notifications
are created: the persistence itself, not just the email, is guarded by
`notify_overdue`. -/
theorem sweep_notification_is_conditional :
    (process_task_overdue_check 1 [] exDBQuiet).tasks
        = [markOverdue exTaskQuiet] ∧
    (process_task_overdue_check 1 [] exDBQuiet).notifications = [] := by
  constructor <;> rfl

theorem countP_unique_id (p : Task → Bool) :
    ∀ (l : List Task) (t : Task), (l.map Task.id).Nodup → t ∈ l →
      l.countP (fun s => s.id == t.id && p s) = if p t then 1 else 0 := by
  intro l
  induction l with
  | nil => intro t _ ht; cases ht
  | cons a rest ih =>
    intro t hnd ht
    have hnd' : a.id ∉ rest.map Task.id ∧ (rest.map Task.id).Nodup := by
      simpa [List.nodup_cons] using hnd
    rw [List.countP_cons]
    rcases List.mem_cons.1 ht with rfl | hmem
    · have hz : rest.countP (fun s => s.id == t.id && p s) = 0 := by
        rw [List.countP_eq_zero]
        intro s hs
        have hne : s.id ≠ t.id := by
          intro he
          exact hnd'.1 (he ▸ List.mem_map_of_mem Task.id hs)
        simp [hne]
      simp [hz]
    · have haid : a.id ≠ t.id := by
        intro he
        have := List.mem_map_of_mem Task.id hmem
        rw [← he] at this
        exact hnd'.1 this
      rw [ih t hnd'.2 hmem]
      simp [haid]

theorem eq_of_id_eq_of_nodup :
    ∀ (l : List Task), (l.map Task.id).Nodup →
      ∀ s ∈ l, ∀ t ∈ l, s.id = t.id → s = t := by
  intro l
  induction l with
  | nil => intro _ s hs; cases hs
  | cons a rest ih =>
    intro hnd s hs t ht hid
    have hnd' : a.id ∉ rest.map Task.id ∧ (rest.map Task.id).Nodup := by
      simpa [List.nodup_cons] using hnd
    rcases List.mem_cons.1 hs with rfl | hs2
    · rcases List.mem_cons.1 ht with rfl | ht2
      · rfl
      · have := List.mem_map_of_mem Task.id ht2
        rw [← hid] at this
        exact absurd this hnd'.1
    · rcases List.mem_cons.1 ht with rfl | ht2
      · have := List.mem_map_of_mem Task.id hs2
        rw [hid] at this
        exact absurd this hnd'.1
      · exact ih hnd'.2 s hs2 t ht2 hid

/-- C2 (amended): for every task the sweep transitions to OVERDUE, a
TASK_OVERDUE notification is created for that transition **iff**
`notify_overdue` is set (one when set, none otherwise), and every
notification created for the task carries
recipient `assigned_to or created_by`.  (Task ids are assumed unique, as
they are a primary key.) -/
theorem sweep_notification_per_transition (now : Int) (users : List User)
    (db : DBState) (t : Task)
    (hnd : (db.tasks.map Task.id).Nodup) (hmem : t ∈ db.tasks)
    (hdue : ∃ d, t.due_date = some d ∧ d < now)
    (hst1 : t.status ≠ TaskStatus.completed)
    (hst2 : t.status ≠ TaskStatus.overdue)
    (hdel : t.is_deleted = false) :
    ((process_task_overdue_check now users db).notifications.drop
        db.notifications.length).countP (fun n => n.task_id == t.id)
      = (if t.notify_overdue then 1 else 0) ∧
    ∀ n ∈ (process_task_overdue_check now users db).notifications.drop
        db.notifications.length,
      n.task_id = t.id → n.user_id = t.assigned_to.getD t.created_by := by
  have helig : overdueEligible now t = true :=
    (overdueEligible_iff now t).2 ⟨hdue, hst1, hst2, hdel⟩
  have hdrop : (process_task_overdue_check now users db).notifications.drop
      db.notifications.length
      = ((db.tasks.filter (overdueEligible now)).filter
          (fun s => s.notify_overdue)).map overdueNotification := by
    rw [sweep_notifications_eq, List.drop_left]
  constructor
  · rw [hdrop, List.countP_map, List.countP_filter, List.countP_filter]
    have hcongr : ∀ s ∈ db.tasks,
        (((((fun n => n.task_id == t.id) ∘ overdueNotification) s
            && s.notify_overdue) && overdueEligible now s) = true)
          ↔ (((fun s => s.id == t.id
              && (s.notify_overdue && overdueEligible now s)) s) = true) := by
      intro s _
      simp [Function.comp, overdueNotification, and_assoc]
    rw [List.countP_congr hcongr,
      countP_unique_id (fun s => s.notify_overdue && overdueEligible now s)
        db.tasks t hnd hmem, helig]
    by_cases h : t.notify_overdue = true <;> simp [h]
  · intro n hn hnid
    rw [hdrop] at hn
    obtain ⟨s, hs, rfl⟩ := List.mem_map.1 hn
    have hsmem : s ∈ db.tasks :=
      List.mem_of_mem_filter (List.mem_of_mem_filter hs)
    have hsid : s.id = t.id := hnid
    have hst : s = t := eq_of_id_eq_of_nodup db.tasks hnd s hsmem t hmem hsid
    rw [hst]
    rfl

/-- Store holding the noisy task and the quiet task. -/
def exDB2 : DBState := { tasks := [exTask, exTaskQuiet], notifications := [] }

/-- Witness for the amended C2 at a concrete input: in a store with one
`notify_overdue` task and one quiet task, exactly one notification is
created for the noisy task's transition. -/
theorem sweep_notification_per_transition_witness :
    ((process_task_overdue_check 1 [] exDB2).notifications.drop
        exDB2.notifications.length).countP (fun n => n.task_id == exTask.id)
      = 1 := by
  have h := (sweep_notification_per_transition 1 [] exDB2 exTask
    (by decide) (by decide) ⟨0, rfl, by decide⟩
    (by decide) (by decide) (by decide)).1
  simpa using h

/-! ### C4 — where the TODO → IN_PROGRESS transition happens -/

/-- A TODO task whose start date has passed but whose due date has not. -/
def exTaskStarted : Task :=
  { exTask with id := 3, start_date := some 0, due_date := some 10 }

/-- C4 counterexample: the 5-minute sweep performs no TODO→IN_PROGRESS
transition.  `exTaskStarted` (TODO, `start_date = 0 ≤ now = 1`,
`due_date = 10` not yet passed) is returned by
`process_task_overdue_check` completely unchanged — still TODO, not
IN_PROGRESS as the claim requires. -/
theorem sweep_does_not_start_tasks :
    (process_task_overdue_check 1 []
        { tasks := [exTaskStarted], notifications := [] }).tasks
      = [exTaskStarted] ∧
    exTaskStarted.status = TaskStatus.todo ∧
    exTaskStarted.start_date = some 0 ∧
    exTaskStarted.due_date = some 10 :=
  ⟨rfl, rfl, rfl, rfl⟩

theorem startup_tasks_eq (now : Int) (users : List User) (db : DBState) :
    (lifespan_startup now users db).1.tasks
      = db.tasks.map (fun t =>
          (fun u => if startEligible now u then
              { u with status := TaskStatus.in_progress } else u)
            ((fun u => if overdueEligible now u then markOverdue u else u) t)) := by
  show (db.tasks.map _).map _ = _
  rw [List.map_map]
  rfl

theorem overview_tasks_eq (now : Int) (db : DBState) :
    (get_overview_transitions now db).tasks
      = db.tasks.map (fun t =>
          (fun u => if startEligible now u then
              { u with status := TaskStatus.in_progress } else u)
            ((fun u => if overdueEligible now u then markOverdue u else u) t)) := by
  show (db.tasks.map _).map _ = _
  rw [List.map_map]
  rfl

theorem startupOverdueLoop_notifs (users : List User) (l : List Task) :
    (startupOverdueLoop users l).1
      = (l.filter (fun t => t.notify_overdue)).map overdueNotification := by
  induction l with
  | nil => rfl
  | cons t r ih =>
    by_cases h : t.notify_overdue <;> simp [startupOverdueLoop, h, ih]

theorem startup_notifications_eq (now : Int) (users : List User) (db : DBState) :
    (lifespan_startup now users db).1.notifications
      = db.notifications
        ++ ((db.tasks.filter (overdueEligible now)).filter
            (fun s => s.notify_overdue)).map overdueNotification := by
  simp [lifespan_startup, startupOverdueLoop_notifs]

/-- C4 (amended): the TODO→IN_PROGRESS transition for tasks whose
`start_date` has passed is performed by the startup reconciliation pass
(`lifespan`) and, identically, by the inline pass at the top of the
analytics overview read — never by the 5-minute sweep.  Conjuncts:
(1) after `lifespan_startup`, every non-deleted TODO task with
`start_date ≤ now` whose due date has not passed has status IN_PROGRESS;
(2) no notification is created for such a task by the startup pass
(task ids assumed unique, as they are a primary key);
(3) the analytics-overview inline pass gives the same status result and
creates no notification at all;
(4) the sweep never moves any task to IN_PROGRESS: a task that is
IN_PROGRESS after `process_task_overdue_check` was IN_PROGRESS before. -/
theorem startup_starts_tasks_sweep_does_not :
    (∀ (now : Int) (users : List User) (db : DBState),
      ∀ p ∈ db.tasks.zip (lifespan_startup now users db).1.tasks,
        p.1.status = TaskStatus.todo →
        (∃ s, p.1.start_date = some s ∧ s ≤ now) →
        (p.1.due_date = none ∨ ∃ d, p.1.due_date = some d ∧ ¬d < now) →
        p.1.is_deleted = false →
        p.2.status = TaskStatus.in_progress) ∧
    (∀ (now : Int) (users : List User) (db : DBState) (t : Task),
      (db.tasks.map Task.id).Nodup → t ∈ db.tasks →
      (t.due_date = none ∨ ∃ d, t.due_date = some d ∧ ¬d < now) →
      ((lifespan_startup now users db).1.notifications.drop
          db.notifications.length).countP (fun n => n.task_id == t.id) = 0) ∧
    (∀ (now : Int) (db : DBState),
      (∀ p ∈ db.tasks.zip (get_overview_transitions now db).tasks,
        p.1.status = TaskStatus.todo →
        (∃ s, p.1.start_date = some s ∧ s ≤ now) →
        (p.1.due_date = none ∨ ∃ d, p.1.due_date = some d ∧ ¬d < now) →
        p.1.is_deleted = false →
        p.2.status = TaskStatus.in_progress) ∧
      (get_overview_transitions now db).notifications = db.notifications) ∧
    (∀ (now : Int) (users : List User) (db : DBState),
      ∀ p ∈ db.tasks.zip (process_task_overdue_check now users db).tasks,
        p.2.status = TaskStatus.in_progress →
        p.1.status = TaskStatus.in_progress) := by
  have hkey : ∀ (now : Int) (l : List Task),
      ∀ p ∈ l.zip (l.map (fun t =>
          (fun u => if startEligible now u then
              { u with status := TaskStatus.in_progress } else u)
            ((fun u => if overdueEligible now u then markOverdue u else u) t))),
        p.1.status = TaskStatus.todo →
        (∃ s, p.1.start_date = some s ∧ s ≤ now) →
        (p.1.due_date = none ∨ ∃ d, p.1.due_date = some d ∧ ¬d < now) →
        p.1.is_deleted = false →
        p.2.status = TaskStatus.in_progress := by
    intro now l p hp hst hstart hdue hdel
    rw [zip_map_self] at hp
    obtain ⟨t, ht, rfl⟩ := List.mem_map.1 hp
    replace hst : t.status = TaskStatus.todo := hst
    replace hstart : ∃ s, t.start_date = some s ∧ s ≤ now := hstart
    replace hdue : t.due_date = none ∨ ∃ d, t.due_date = some d ∧ ¬d < now := hdue
    replace hdel : t.is_deleted = false := hdel
    have helig : overdueEligible now t = false := by
      rcases hdue with h | ⟨d, hd, hlt⟩
      · simp [overdueEligible, h]
      · simp [overdueEligible, hd, hlt]
    have hstartE : startEligible now t = true := by
      obtain ⟨s, hs, hle⟩ := hstart
      simp [startEligible, hs, hle, hst, hdel]
    simp [helig, hstartE]
  refine ⟨?_, ?_, ?_, ?_⟩
  · intro now users db p hp
    rw [startup_tasks_eq] at hp
    exact hkey now db.tasks p hp
  · intro now users db t hnd hmem hdue
    have hne : overdueEligible now t = false := by
      rcases hdue with h | ⟨d, hd, hlt⟩
      · simp [overdueEligible, h]
      · simp [overdueEligible, hd, hlt]
    rw [show (lifespan_startup now users db).1.notifications.drop
          db.notifications.length
        = ((db.tasks.filter (overdueEligible now)).filter
            (fun s => s.notify_overdue)).map overdueNotification
      from by rw [startup_notifications_eq, List.drop_left]]
    rw [List.countP_eq_zero]
    intro n hn
    obtain ⟨s, hs, rfl⟩ := List.mem_map.1 hn
    intro hcontra
    have hsid : s.id = t.id := by simpa [overdueNotification] using hcontra
    have hsmem : s ∈ db.tasks :=
      List.mem_of_mem_filter (List.mem_of_mem_filter hs)
    have hselig : overdueEligible now s = true :=
      List.of_mem_filter (List.mem_of_mem_filter hs)
    have hseq : s = t := eq_of_id_eq_of_nodup db.tasks hnd s hsmem t hmem hsid
    rw [hseq, hne] at hselig
    cases hselig
  · intro now db
    refine ⟨?_, rfl⟩
    intro p hp
    rw [overview_tasks_eq] at hp
    exact hkey now db.tasks p hp
  · intro now users db p hp h2
    rw [sweep_tasks_eq, zip_map_self] at hp
    obtain ⟨t, ht, rfl⟩ := List.mem_map.1 hp
    replace h2 : (if overdueEligible now t then markOverdue t else t).status
        = TaskStatus.in_progress := h2
    show t.status = TaskStatus.in_progress
    by_cases he : overdueEligible now t = true
    · rw [if_pos he] at h2
      simp [markOverdue] at h2
    · rw [if_neg he] at h2
      exact h2

/-- Witness for the amended C4 at a concrete input: the startup pass
moves `exTaskStarted` (TODO, started, not yet due) to IN_PROGRESS and
creates zero notifications for it. -/
theorem startup_starts_tasks_witness :
    ({ exTaskStarted with status := TaskStatus.in_progress } : Task).status
        = TaskStatus.in_progress ∧
    ((lifespan_startup 1 []
        { tasks := [exTaskStarted], notifications := [] }).1.notifications.drop
        0).countP (fun n => n.task_id == exTaskStarted.id) = 0 := by
  constructor
  · exact startup_starts_tasks_sweep_does_not.1 1 []
      { tasks := [exTaskStarted], notifications := [] }
      (exTaskStarted, { exTaskStarted with status := TaskStatus.in_progress })
      (by decide) rfl ⟨0, rfl, by decide⟩ (Or.inr ⟨10, rfl, by decide⟩) rfl
  · exact startup_starts_tasks_sweep_does_not.2.1 1 []
      { tasks := [exTaskStarted], notifications := [] } exTaskStarted
      (by decide) (by decide) (Or.inr ⟨10, rfl, by decide⟩)

/-! ### C5 — the creation-time auto-transition ignores start_date -/

/-- Creation payload: explicit TODO, due in the future, no start date. -/
def exCreate : TaskCreate :=
  { title := "c"
  , status := some TaskStatus.todo
  , priority := none
  , start_date := none
  , due_date := some 10
  , notify_overdue := none
  , assigned_to := none }

/-- C5 counterexample: `create_task` at time 0 with `due_date = 10`
(in the future) and no start date produces a task whose status is
IN_PROGRESS even though its stored `start_date` is absent — the
creation-time auto-transition is keyed on `due_date`, not on
`start_date`, so a TODO task is moved to IN_PROGRESS while its start
date is absent. -/
theorem create_task_starts_without_start_date :
    (create_task 0 7 exCreate 1).status = TaskStatus.in_progress ∧
    (create_task 0 7 exCreate 1).start_date = none := by
  exact ⟨by decide, rfl⟩

/-- C5 (amended): the creation-time (and bulk-creation) auto-transition
enters IN_PROGRESS exactly when the payload carries a `due_date ≥ now`
and the requested status is TODO (or already IN_PROGRESS), irrespective
of `start_date`; moreover `create_task` stores no `start_date` at all. -/
theorem create_auto_status_ignores_start_date :
    (∀ (now d : Int) (st : TaskStatus),
      auto_status now st (some d) = TaskStatus.in_progress
        ↔ (now ≤ d ∧ (st = TaskStatus.todo ∨ st = TaskStatus.in_progress))) ∧
    (∀ (now : Int) (nid : Nat) (data : TaskCreate) (uid : Nat),
      (create_task now nid data uid).start_date = none) := by
  constructor
  · intro now d st
    cases st <;> simp [auto_status] <;> by_cases hd : d < now <;>
      simp [hd] <;> omega
  · intro now nid data uid
    rfl

/-! ### C7 — cache invalidation on mutations -/

/-- A cached key covered by the task-listing or analytics pattern. -/
def matches_task_or_analytics (k : String) : Bool :=
  glob_match "tasks:*" k || glob_match "analytics:*" k

/-- C7 counterexample: the comment mutations purge nothing — a cache
holding a task-listing entry and an analytics entry passes through
`add_comment` (and likewise `update_comment` / `delete_comment`)
untouched, although both keys match the purge patterns the claim says
every comment mutation clears. -/
theorem comment_mutations_purge_nothing :
    add_comment_cache ["tasks:1:1:10", "analytics:status"]
        = ["tasks:1:1:10", "analytics:status"] ∧
    update_comment_cache ["tasks:1:1:10", "analytics:status"]
        = ["tasks:1:1:10", "analytics:status"] ∧
    delete_comment_cache ["tasks:1:1:10", "analytics:status"]
        = ["tasks:1:1:10", "analytics:status"] ∧
    matches_task_or_analytics "tasks:1:1:10" = true ∧
    matches_task_or_analytics "analytics:status" = true :=
  ⟨rfl, rfl, rfl, by decide, by decide⟩

theorem purge_both_clears (c : List String) :
    ((cache_delete_pattern "analytics:*" (cache_delete_pattern "tasks:*" c)).all
      (fun k => !(matches_task_or_analytics k))) = true := by
  rw [List.all_eq_true]
  intro k hk
  have h2 : glob_match "analytics:*" k = false := by
    simpa using List.of_mem_filter hk
  have h1 : glob_match "tasks:*" k = false := by
    simpa using List.of_mem_filter (List.mem_of_mem_filter hk)
  simp [matches_task_or_analytics, h1, h2]

/-- C7 (amended): every task mutation (create, bulk create, update,
delete) purges all cache entries matching the task-listing pattern
`"tasks:*"` and the analytics pattern `"analytics:*"`, but the comment
mutations (add, update, delete) perform no cache purge at all. -/
theorem task_mutations_purge_comment_mutations_do_not :
    (∀ c : List String,
      ((create_task_cache c).all (fun k => !(matches_task_or_analytics k))) = true ∧
      ((bulk_create_tasks_cache c).all (fun k => !(matches_task_or_analytics k))) = true ∧
      ((update_task_cache c).all (fun k => !(matches_task_or_analytics k))) = true ∧
      ((delete_task_cache c).all (fun k => !(matches_task_or_analytics k))) = true) ∧
    (∀ c : List String,
      add_comment_cache c = c ∧
      update_comment_cache c = c ∧
      delete_comment_cache c = c) := by
  refine ⟨fun c => ⟨?_, ?_, ?_, ?_⟩, fun c => ⟨rfl, rfl, rfl⟩⟩ <;>
    exact purge_both_clears c

/-! ### C8 / C9 — the connection registry and broadcast -/

/-- The sessions the registry currently holds for a user (the user's
`active_connections` bucket, empty when the key is absent). -/
def sessions_for (reg : Registry) (user_id : String) : List Session :=
  match reg.find? (fun b => b.1 == user_id) with
  | none => []
  | some b => b.2

theorem broadcast_registry_unchanged (sendOk : Session → Bool)
    (exclude : Option String) (reg : Registry) :
    (broadcast sendOk exclude reg).2 = reg := by
  induction reg with
  | nil => rfl
  | cons b rest ih =>
    obtain ⟨u, conns⟩ := b
    by_cases h : (exclude == some u) = true <;> simp [broadcast, h, ih]

theorem broadcast_delivered_sendOk (sendOk : Session → Bool)
    (exclude : Option String) (reg : Registry) :
    ∀ s ∈ (broadcast sendOk exclude reg).1, sendOk s = true := by
  induction reg with
  | nil => intro s hs; cases hs
  | cons b rest ih =>
    obtain ⟨u, conns⟩ := b
    intro s hs
    by_cases h : (exclude == some u) = true
    · rw [show broadcast sendOk exclude ((u, conns) :: rest)
          = ((broadcast sendOk exclude rest).1, (u, conns) :: (broadcast sendOk exclude rest).2)
        from by simp [broadcast, h]] at hs
      exact ih s hs
    · rw [show broadcast sendOk exclude ((u, conns) :: rest)
          = (conns.filter sendOk ++ (broadcast sendOk exclude rest).1,
             (u, conns) :: (broadcast sendOk exclude rest).2)
        from by simp [broadcast, h]] at hs
      rcases List.mem_append.1 hs with h2 | h2
      · exact List.of_mem_filter h2
      · exact ih s h2

theorem broadcast_delivers_to_bucket (sendOk : Session → Bool)
    (exclude : Option String) (reg : Registry)
    (bkt : String × List Session) (b : Session) :
    bkt ∈ reg → (exclude == some bkt.1) = false → b ∈ bkt.2 →
    sendOk b = true → b ∈ (broadcast sendOk exclude reg).1 := by
  induction reg with
  | nil => intro h; cases h
  | cons a rest ih =>
    intro hmem hexc hb hok
    obtain ⟨u, conns⟩ := a
    rcases List.mem_cons.1 hmem with rfl | hmem2
    · rw [show broadcast sendOk exclude ((u, conns) :: rest)
          = (conns.filter sendOk ++ (broadcast sendOk exclude rest).1,
             (u, conns) :: (broadcast sendOk exclude rest).2)
        from by simp [broadcast]; intro hcontra; simp [hcontra] at hexc]
      exact List.mem_append.2 (Or.inl (List.mem_filter.2 ⟨hb, hok⟩))
    · by_cases h : (exclude == some u) = true
      · rw [show broadcast sendOk exclude ((u, conns) :: rest)
            = ((broadcast sendOk exclude rest).1, (u, conns) :: (broadcast sendOk exclude rest).2)
          from by simp [broadcast, h]]
        exact ih hmem2 hexc hb hok
      · rw [show broadcast sendOk exclude ((u, conns) :: rest)
            = (conns.filter sendOk ++ (broadcast sendOk exclude rest).1,
               (u, conns) :: (broadcast sendOk exclude rest).2)
          from by simp [broadcast, h]]
        exact List.mem_append.2 (Or.inr (ih hmem2 hexc hb hok))

/-- C8: in a single broadcast, a session whose send fails is skipped
while every other session of every non-excluded bucket still receives
the event, and the broadcaster leaves the registry unchanged (the
failed session is not removed). -/
theorem broadcast_skips_failed_and_continues (sendOk : Session → Bool)
    (exclude : Option String) (reg : Registry)
    (a b : Session) (bkt : String × List Session)
    (hbkt : bkt ∈ reg) (hexc : (exclude == some bkt.1) = false)
    (hb : b ∈ bkt.2) (hbok : sendOk b = true) (hafail : sendOk a = false) :
    b ∈ (broadcast sendOk exclude reg).1 ∧
    a ∉ (broadcast sendOk exclude reg).1 ∧
    (broadcast sendOk exclude reg).2 = reg := by
  refine ⟨broadcast_delivers_to_bucket sendOk exclude reg bkt b hbkt hexc hb hbok,
    ?_, broadcast_registry_unchanged sendOk exclude reg⟩
  intro hmem
  have := broadcast_delivered_sendOk sendOk exclude reg a hmem
  rw [hafail] at this
  cases this

/-- Witness for C8 at a concrete input: user "u" has sessions 1 and 2;
session 1's send fails, session 2's succeeds; 2 is delivered, 1 is not,
and the registry is untouched. -/
theorem broadcast_skips_failed_witness :
    2 ∈ (broadcast (fun s => s == 2) none [("u", [1, 2])]).1 ∧
    1 ∉ (broadcast (fun s => s == 2) none [("u", [1, 2])]).1 ∧
    (broadcast (fun s => s == 2) none [("u", [1, 2])]).2 = [("u", [1, 2])] :=
  broadcast_skips_failed_and_continues (fun s => s == 2) none
    [("u", [1, 2])] 1 2 ("u", [1, 2])
    (by decide) (by decide) (by decide) (by decide) (by decide)

/-- C9: for a user with no prior entry: connect then disconnect restores
the registry exactly (the emptied bucket is pruned, so no entry for the
user remains and a subsequent broadcast finds zero sessions for them);
two connects then one broadcast deliver the event to both sessions. -/
theorem connect_disconnect_broadcast (reg : Registry) (u : String)
    (s s1 s2 : Session) (sendOk : Session → Bool) (exclude : Option String)
    (hfresh : reg.all (fun b => !(b.1 == u)) = true) :
    disconnect (connect reg s u) s u = reg ∧
    sessions_for (disconnect (connect reg s u) s u) u = [] ∧
    (sendOk s1 = true → sendOk s2 = true → (exclude == some u) = false →
      s1 ∈ (broadcast sendOk exclude (connect (connect reg s1 u) s2 u)).1 ∧
      s2 ∈ (broadcast sendOk exclude (connect (connect reg s1 u) s2 u)).1) := by
  have hnotin : ∀ b ∈ reg, (b.1 == u) = false := by
    intro b hb
    simpa using List.all_eq_true.1 hfresh b hb
  have hany : (reg.any (fun b => b.1 == u)) = false := by
    rw [List.any_eq_false]
    intro b hb
    simp [hnotin b hb]
  have hfind : reg.find? (fun b => b.1 == u) = none := by
    rw [List.find?_eq_none]
    intro b hb
    simp [hnotin b hb]
  have hconn : connect reg s u = reg ++ [(u, [s])] := by
    rw [connect, if_neg]
    simp [hany]
  have hfilter_self : reg.filter (fun c => !(c.1 == u)) = reg := by
    rw [List.filter_eq_self]
    intro b hb
    simp [hnotin b hb]
  have hdisc : disconnect (connect reg s u) s u = reg := by
    rw [hconn, disconnect, List.find?_append, hfind]
    simp only [Option.none_or]
    rw [show List.find? (fun b => b.1 == u) [(u, [s])] = some (u, [s])
      from by simp]
    simp [List.filter_append, hfilter_self]
  refine ⟨hdisc, ?_, ?_⟩
  · rw [hdisc, sessions_for, hfind]
  · intro h1 h2 hexc
    have hconn1 : connect reg s1 u = reg ++ [(u, [s1])] := by
      rw [connect, if_neg]
      simp [hany]
    have hany2 : ((reg ++ [(u, [s1])]).any (fun b => b.1 == u)) = true := by
      rw [List.any_eq_true]
      exact ⟨(u, [s1]), List.mem_append_right reg (by simp), by simp⟩
    have hconn2 : connect (connect reg s1 u) s2 u = reg ++ [(u, [s1, s2])] := by
      rw [hconn1, connect, if_pos hany2, List.map_append]
      congr 1
      · have hc : ∀ b ∈ reg,
            (if b.1 == u then (b.1, b.2 ++ [s2]) else b) = id b := by
          intro b hb
          simp [hnotin b hb]
        exact (List.map_congr_left hc).trans (List.map_id reg)
      · simp
    rw [hconn2]
    have hmem : (u, [s1, s2]) ∈ reg ++ [(u, [s1, s2])] :=
      List.mem_append_right reg (by simp)
    exact ⟨broadcast_delivers_to_bucket sendOk exclude _ (u, [s1, s2]) s1
        hmem hexc (by simp) h1,
      broadcast_delivers_to_bucket sendOk exclude _ (u, [s1, s2]) s2
        hmem hexc (by simp) h2⟩

/-- Witness for C9 at a concrete input: starting from a registry holding
only user "v", connect/disconnect for "u" restores the registry, and two
connects for "u" deliver a broadcast to both of u's sessions. -/
theorem connect_disconnect_broadcast_witness :
    disconnect (connect [("v", [9])] 1 "u") 1 "u" = [("v", [9])] ∧
    sessions_for (disconnect (connect [("v", [9])] 1 "u") 1 "u") "u" = [] ∧
    (1 ∈ (broadcast (fun _ => true) none
        (connect (connect [("v", [9])] 1 "u") 2 "u")).1 ∧
     2 ∈ (broadcast (fun _ => true) none
        (connect (connect [("v", [9])] 1 "u") 2 "u")).1) := by
  have h := connect_disconnect_broadcast [("v", [9])] "u" 1 1 2
    (fun _ => true) none (by decide)
  exact ⟨h.1, h.2.1, h.2.2 rfl rfl (by decide)⟩

/-! ### C3 — concurrent evaluators racing on one overdue-eligible task -/

/-- Initial race state: one eligible task, two evaluators. -/
def raceInit2 : RaceState :=
  { db := { tasks := [exTask], notifications := [] }
  , evs := [Evaluator.fresh, Evaluator.fresh] }

/-- The overlapped schedule: both evaluators read their snapshot before
either commits. -/
def overlapSched : List (Nat × EvAct) :=
  [(0, EvAct.select), (1, EvAct.select), (0, EvAct.commit), (1, EvAct.commit)]

/-- C3 counterexample: the sweep's status write
(`task.status = TaskStatus.OVERDUE` after a plain select) is NOT an
atomic conditional update keyed on the previously observed status — no
such guard exists in the code — so when two evaluators overlap on one
overdue-eligible task (both select before either commits) both of them
apply the transition and each creates its own notification: two
TASK_OVERDUE notifications result, not at most one. -/
theorem race_overlap_two_notifications :
    (raceRun 1 overlapSched raceInit2).db.notifications
      = [overdueNotification exTask, overdueNotification exTask] ∧
    (raceRun 1 overlapSched raceInit2).db.tasks = [markOverdue exTask] := by
  constructor <;> rfl

theorem raceStep_oob (now : Int) (st : RaceState) (i : Nat) (a : EvAct)
    (h : st.evs[i]? = none) : raceStep now st (i, a) = st := by
  simp [raceStep, h]

theorem raceStep_select_fresh (now : Int) (st : RaceState) (i : Nat)
    (ev : Evaluator) (h : st.evs[i]? = some ev) (hs : ev.snap = none) :
    raceStep now st (i, EvAct.select)
      = { st with evs := st.evs.set i ({ ev with snap := some (st.db.tasks.filter (overdueEligible now)) }) } := by
  simp [raceStep, h, hs]

theorem raceStep_select_done (now : Int) (st : RaceState) (i : Nat)
    (ev : Evaluator) (l : List Task)
    (h : st.evs[i]? = some ev) (hs : ev.snap = some l) :
    raceStep now st (i, EvAct.select) = st := by
  simp [raceStep, h, hs]

theorem raceStep_commit_fresh (now : Int) (st : RaceState) (i : Nat)
    (ev : Evaluator) (h : st.evs[i]? = some ev) (hs : ev.snap = none) :
    raceStep now st (i, EvAct.commit) = st := by
  simp [raceStep, h, hs]

theorem raceStep_commit_apply (now : Int) (st : RaceState) (i : Nat)
    (ev : Evaluator) (l : List Task)
    (h : st.evs[i]? = some ev) (hs : ev.snap = some l)
    (hc : ev.committed = false) :
    raceStep now st (i, EvAct.commit)
      = { db := applyCommit l st.db
        , evs := st.evs.set i ({ ev with committed := true }) } := by
  simp [raceStep, h, hs, hc]

theorem raceStep_commit_done (now : Int) (st : RaceState) (i : Nat)
    (ev : Evaluator) (l : List Task)
    (h : st.evs[i]? = some ev) (hs : ev.snap = some l)
    (hc : ev.committed = true) :
    raceStep now st (i, EvAct.commit) = st := by
  simp [raceStep, h, hs, hc]

theorem applyCommit_nil (db : DBState) : applyCommit [] db = db := by
  simp [applyCommit]

theorem raceRun_cons (now : Int) (a : Nat × EvAct)
    (sched : List (Nat × EvAct)) (st : RaceState) :
    raceRun now (a :: sched) st = raceRun now sched (raceStep now st a) := rfl

theorem serialSched_cons (i : Nat) (is : List Nat) :
    serialSched (i :: is)
      = (i, EvAct.select) :: (i, EvAct.commit) :: serialSched is := rfl

/-- Evaluators that can only ever see an empty snapshot never change the
database: running the serialized schedule of any index list from a state
with no eligible task (and whose listed evaluators hold no non-empty
snapshot) leaves the database untouched. -/
theorem raceRun_serial_noop (now : Int) :
    ∀ (is : List Nat) (st : RaceState),
      (∀ t ∈ st.db.tasks, overdueEligible now t = false) →
      (∀ i ∈ is, ∀ ev, st.evs[i]? = some ev →
        ev.snap = none ∨ ev.snap = some []) →
      (raceRun now (serialSched is) st).db = st.db := by
  intro is
  induction is with
  | nil => intro st _ _; rfl
  | cons i rest ih =>
    intro st hdb hevs
    rw [serialSched_cons, raceRun_cons, raceRun_cons]
    have hfilter : st.db.tasks.filter (overdueEligible now) = [] := by
      rw [List.filter_eq_nil_iff]
      intro t ht
      simp [hdb t ht]
    cases hex : st.evs[i]? with
    | none =>
      rw [raceStep_oob now st i EvAct.select hex]
      rw [raceStep_oob now st i EvAct.commit hex]
      exact ih st hdb (fun j hj ev hev => hevs j (List.mem_cons_of_mem i hj) ev hev)
    | some ev =>
      have hlt : i < st.evs.length := (List.getElem?_eq_some_iff.1 hex).1
      have happly : ∀ x : Evaluator, x.snap = none ∨ x.snap = some [] →
          (raceRun now (serialSched rest)
            { db := st.db, evs := st.evs.set i x }).db = st.db := by
        intro x hx
        refine ih { db := st.db, evs := st.evs.set i x } hdb ?_
        intro j hj ev2 hev2
        by_cases hji : i = j
        · subst hji
          rw [show ({ db := st.db, evs := st.evs.set i x } : RaceState).evs[i]?
              = some x from List.getElem?_set_self hlt] at hev2
          cases hev2
          exact hx
        · rw [show ({ db := st.db, evs := st.evs.set i x } : RaceState).evs[j]?
              = st.evs[j]? from List.getElem?_set_ne hji] at hev2
          exact hevs j (List.mem_cons_of_mem i hj) ev2 hev2
      rcases hevs i (List.mem_cons_self i rest) ev hex with hs | hs
      · -- the evaluator has not selected yet: it takes an empty snapshot
        rw [raceStep_select_fresh now st i ev hex hs, hfilter]
        cases hc : ev.committed with
        | false =>
          rw [raceStep_commit_apply now _ i ({ snap := some [], committed := false }) []
            (List.getElem?_set_self hlt) rfl rfl, applyCommit_nil, List.set_set]
          exact happly ({ snap := some [], committed := true }) (Or.inr rfl)
        | true =>
          rw [raceStep_commit_done now _ i ({ snap := some [], committed := true }) []
            (List.getElem?_set_self hlt) rfl rfl]
          exact happly ({ snap := some [], committed := true }) (Or.inr rfl)
      · -- the evaluator already holds the empty snapshot
        rw [raceStep_select_done now st i ev [] hex hs]
        cases hc : ev.committed with
        | false =>
          rw [raceStep_commit_apply now st i ev [] hex hs hc, applyCommit_nil]
          exact happly { ev with committed := true } (Or.inr (by simpa using hs))
        | true =>
          rw [raceStep_commit_done now st i ev [] hex hs hc]
          exact ih st hdb
            (fun j hj ev2 hev2 => hevs j (List.mem_cons_of_mem i hj) ev2 hev2)

theorem race_head_steps (now : Int) (t : Task) (m : Nat)
    (helig : overdueEligible now t = true) (hnot : t.notify_overdue = true) :
    raceStep now (raceStep now
        { db := { tasks := [t], notifications := [] }
        , evs := List.replicate (m + 1) Evaluator.fresh } (0, EvAct.select))
        (0, EvAct.commit)
      = { db := { tasks := [markOverdue t], notifications := [overdueNotification t] }
        , evs := ({ snap := some [t], committed := true }) :: List.replicate m Evaluator.fresh } := by
  rw [List.replicate_succ]
  simp [raceStep, applyCommit, Evaluator.fresh, helig, hnot]

/-- C3 (amended): the sweep's status write is a plain unconditional
assignment after a snapshot select — there is no conditional update
keyed on the previously observed status — so exactly-one-winner
semantics holds only for non-overlapping executions: N evaluators run
serially (each selecting after the previous one committed) on one
overdue-eligible task with `notify_overdue` produce exactly one status
transition and exactly one notification, while overlapping evaluators
can each emit a notification (see the counterexample). -/
theorem race_serial_exactly_one_notification (now : Int) (t : Task) (N : Nat)
    (hdue : ∃ d, t.due_date = some d ∧ d < now)
    (hst1 : t.status ≠ TaskStatus.completed)
    (hst2 : t.status ≠ TaskStatus.overdue)
    (hdel : t.is_deleted = false)
    (hnot : t.notify_overdue = true)
    (hN : 1 ≤ N) :
    (raceRun now (serialSched (List.range N))
        { db := { tasks := [t], notifications := [] }
        , evs := List.replicate N Evaluator.fresh }).db
      = { tasks := [markOverdue t], notifications := [overdueNotification t] } := by
  have helig : overdueEligible now t = true :=
    (overdueEligible_iff now t).2 ⟨hdue, hst1, hst2, hdel⟩
  obtain ⟨m, rfl⟩ : ∃ m, N = m + 1 := ⟨N - 1, by omega⟩
  rw [List.range_succ_eq_map, serialSched_cons, raceRun_cons, raceRun_cons,
    race_head_steps now t m helig hnot]
  have hnoop := raceRun_serial_noop now (List.map Nat.succ (List.range m))
      { db := { tasks := [markOverdue t], notifications := [overdueNotification t] }
      , evs := ({ snap := some [t], committed := true }) :: List.replicate m Evaluator.fresh }
      ?_ ?_
  · rw [hnoop]
  · intro x hx
    have hxe : x = markOverdue t := by simpa using hx
    rw [hxe]
    simp [overdueEligible, markOverdue]
  · intro j hj ev hev
    obtain ⟨k, hk, rfl⟩ := List.mem_map.1 hj
    replace hev : (List.replicate m Evaluator.fresh)[k]? = some ev := by
      simpa using hev
    rw [List.getElem?_replicate] at hev
    by_cases hkm : k < m
    · rw [if_pos hkm] at hev
      cases hev
      exact Or.inl rfl
    · rw [if_neg hkm] at hev
      cases hev

/-- Witness for the amended C3 at a concrete input: two serialized
evaluators on `exTask` produce exactly one notification and one
OVERDUE transition. -/
theorem race_serial_exactly_one_witness :
    (raceRun 1 (serialSched (List.range 2))
        { db := { tasks := [exTask], notifications := [] }
        , evs := List.replicate 2 Evaluator.fresh }).db
      = { tasks := [markOverdue exTask]
        , notifications := [overdueNotification exTask] } :=
  race_serial_exactly_one_notification 1 exTask 2 ⟨0, rfl, by decide⟩
    (by decide) (by decide) rfl rfl (by decide)

end TaskPy
